import Mathlib

/-!
Verification of the `lal-build-manager` core against its specification.

Shallow embedding of the two source modules:

* `src/shell.rs` — the sandbox launcher (`docker_run`, `shell`,
  `permission_sanity_check`).  Process-global state (home directory, current
  directory, the results of the two `id` invocations, and the docker child's
  exit status) is threaded explicitly through a `World` record, and the
  observable actions (printing, warning, invoking `id`, spawning docker) are
  returned as an explicit effect trace.

* `src/storage/download.rs` — the artifact-caching layer
  (`get_cache_dir`, `is_cached`, `store_tarball`, `extract_tarball_to_input`,
  and the `CachedBackend` operations).  The filesystem is an explicit `FS`
  state (a list of files with contents plus a list of directories), threaded
  through every operation; the pluggable `Backend` trait is a record of
  functions; backend downloads are recorded in an explicit effect trace.

Paths are modelled as the strings the Rust code builds: `Path::join` of the
relative components used here appends a `/` separator.  Machine integers
(`u32` versions, process exit codes) are modelled as `Nat` / `Int`; no
arithmetic in this code can overflow a `u32`/`i32` in a way the claims
observe.  Streaming decompression/unarchiving (the external `flate2`/`tar`
crates) is modelled by a file-content datatype that distinguishes raw bytes
from an archive holding a list of entries; decoding happens up-front since
the embedding has no streams.
-/

/-- A filesystem path, rendered as the string the Rust code builds. -/
abbrev FPath := String

/-- Rust `Path::join` for the relative components this code joins:
parent, separator, child. -/
def pathJoin (a b : String) : String := a ++ "/" ++ b

/-- File contents: raw bytes, or a compressed tar archive holding
(relative path, raw contents) entries.  The archive form models what the
external `flate2`/`tar` crates produce and consume. -/
inductive FData where
  | raw (s : String)
  | archive (entries : List (String × String))
deriving DecidableEq

/-- Explicit filesystem state: files with their contents, and directories. -/
structure FS where
  files : List (FPath × FData)
  dirs : List FPath
deriving DecidableEq

/-- `Path::is_file`. -/
def FS.isFile (fs : FS) (p : FPath) : Bool := fs.files.any (fun f => f.1 == p)

/-- `fs::File::open` / reading a file's contents. -/
def FS.readFile (fs : FS) (p : FPath) : Option FData :=
  (fs.files.find? (fun f => f.1 == p)).map (fun f => f.2)

/-- `Path::is_dir`. -/
def FS.isDir (fs : FS) (p : FPath) : Bool := fs.dirs.any (fun d => d == p)

/-- Split a character list into segments at `/`. -/
def splitSegsAux : List Char → List Char → List (List Char)
  | [], acc => [acc.reverse]
  | c :: cs, acc =>
    if c = '/' then acc.reverse :: splitSegsAux cs []
    else splitSegsAux cs (c :: acc)

/-- The `/`-separated segments of a path. -/
def pathSegs (p : FPath) : List (List Char) := splitSegsAux p.data []

/-- Join segments back into a path. -/
def joinSegs (l : List (List Char)) : FPath := ⟨(l.intersperse ['/']).flatten⟩

/-- The proper ancestors of a path, split at separators (for `mkdir -p`). -/
def pathAncestors (p : FPath) : List FPath :=
  (List.range ((pathSegs p).length - 1)).map
    (fun i => joinSegs ((pathSegs p).take (i + 1)))

/-- `fs::create_dir_all`: creates the directory and any missing ancestors. -/
def FS.createDirAll (fs : FS) (p : FPath) : FS :=
  { fs with dirs := fs.dirs ++ (pathAncestors p ++ [p]) }

/-- Writing a file (the effect of `fs::copy` into `p`, or of a download
landing at `p`): replaces any previous file at that path. -/
def FS.writeFile (fs : FS) (p : FPath) (d : FData) : FS :=
  { fs with files := (p, d) :: fs.files.filter (fun f => f.1 != p) }

/-- `fs::remove_file`. -/
def FS.removeFile (fs : FS) (p : FPath) : FS :=
  { fs with files := fs.files.filter (fun f => f.1 != p) }

/-- `q` lies strictly below directory `p`. -/
def isUnder (p q : FPath) : Bool := List.isPrefixOf (p.data ++ ['/']) q.data

/-- `fs::remove_dir_all`: removes the directory and everything below it. -/
def FS.removeDirAll (fs : FS) (p : FPath) : FS :=
  { files := fs.files.filter (fun f => !(isUnder p f.1)),
    dirs := fs.dirs.filter (fun d => !(isUnder p d) && d != p) }

/-- The files lying below directory `p` (with their full paths). -/
def filesUnder (p : FPath) (fs : FS) : List (FPath × FData) :=
  fs.files.filter (fun f => isUnder p f.1)

/-- A configured bind mount (`Mount { src, dest, readonly }`). -/
structure Mount where
  src : String
  dest : String
  readonly : Bool
deriving DecidableEq

/-- The fields of `Config` consumed by `shell.rs`: the container image
reference and the configured mounts. -/
structure Config where
  container : String
  mounts : List Mount
deriving DecidableEq

/-- The `CliError` variants reachable from the embedded code.  `PanicAssert`
models a failed `assert!` (a Rust panic) as an error outcome so the
assertion branch is observable in the embedding. -/
inductive CliError where
  | DockerPermissionSafety (msg : String)
  | SubprocessFailure (code : Int)
  | MissingTarball
  | MissingStashArtifact (what : String)
  | FilesystemFailure (what : String)
  | PanicAssert (msg : String)
deriving DecidableEq

/-- Observable actions of the launcher. -/
inductive Effect where
  | println (s : String)
  | info (s : String)
  | warnErr (e : CliError)
  | warn (s : String)
  | runId (flag : String)
  | spawnDocker (args : List String)
deriving DecidableEq

/-- Whether an effect is a docker spawn. -/
def Effect.isSpawn : Effect → Bool
  | .spawnDocker _ => true
  | _ => false

/-- Process-global state consumed by `shell.rs`: `$HOME`, the current
directory, the (already trimmed and parsed) outputs of `id -u` / `id -g`,
and the docker child's exit status (`none` models signal termination, where
`ExitStatus::code()` returns `None`). -/
structure World where
  home : String
  pwd : String
  uid : Nat
  gid : Nat
  docker_status : Option Int
deriving DecidableEq

/-- `permission_sanity_check` from `src/shell.rs`: checks `id -u` then
`id -g` against 1000, returning the outcome together with the `id`
invocations actually performed (`id -g` only runs when the uid check
passed). -/
def permission_sanity_check (uid gid : Nat) : Except CliError Unit × List Effect :=
  if uid != 1000 then
    (.error (.DockerPermissionSafety ("UID is " ++ toString uid ++ ", not 1000")),
     [.runId "-u"])
  else if gid != 1000 then
    (.error (.DockerPermissionSafety ("GID is " ++ toString gid ++ ", not 1000")),
     [.runId "-u", .runId "-g"])
  else
    (.ok (), [.runId "-u", .runId "-g"])

/-- `docker_run` from `src/shell.rs`: builds the docker argument vector
(mirroring the source's pushes: `run`, `--rm`, one `-v` flag per configured
mount, the implicit `.gitconfig` and current-directory mounts, `-w`,
`--user`, the tty flag, the image, then the command tokens), then either
prints it (`printonly`) or runs the permission check (warn-and-continue)
and spawns docker, mapping the exit status exactly as the source does. -/
def docker_run (cfg : Config) (command : List String) (interactive : Bool)
    (printonly : Bool) (w : World) : Except CliError Unit × List Effect :=
  let git_cfg := pathJoin w.home ".gitconfig"
  let args :=
    (cfg.mounts.foldl
      (fun a m =>
        a ++ ["-v", m.src ++ ":" ++ m.dest ++ (if m.readonly then ":ro" else "")])
      ["run", "--rm"])
    ++ ["-v", git_cfg ++ ":/home/lal/.gitconfig:ro",
        "-v", w.pwd ++ ":/home/lal/volume",
        "-w", "/home/lal/volume",
        "--user", "lal",
        (if interactive then "-it" else "-t"),
        cfg.container]
    ++ command
  if printonly then
    (.ok (), [.println ("docker " ++ String.intercalate " " args)])
  else
    let perm := permission_sanity_check w.uid w.gid
    let permEffs := perm.2 ++
      (match perm.1 with
       | .error e => [.warnErr e, .warn "You will likely have permission issues"]
       | .ok _ => [])
    let res : Except CliError Unit :=
      if w.docker_status == some 0 then .ok ()
      else .error (.SubprocessFailure (w.docker_status.getD 1001))
    (res, permEffs ++ [.spawnDocker args])

/-- `shell` from `src/shell.rs`: enters an interactive (`interactive = true`)
bash shell; a supplied command is passed through `-c`, wrapped in two pairs
of double quotes exactly as the source formats it. -/
def shell (cfg : Config) (printonly : Bool) (cmd : Option String) (w : World) :
    Except CliError Unit × List Effect :=
  let pre : List Effect := if !printonly then [.info "Entering docker container"] else []
  let bash :=
    match cmd with
    | some c => ["/bin/bash", "-c", "\"\"" ++ c ++ "\"\""]
    | none => ["/bin/bash"]
  let r := docker_run cfg bash true printonly w
  (r.1, pre ++ r.2)

/-- A resolved component (`storage::Component`): name, version, and the
resolved tarball download location. -/
structure Component where
  name : String
  version : Nat
  tarball : String
deriving DecidableEq

/-- The `Backend` trait as consumed by the caching layer: the cache root,
reference resolution (`get_tarball_url`), and the raw-download capability.
A download outcome of `.ok none` models a backend that reports success
without producing the destination file (the backend/filesystem
inconsistency the caching layer guards against); `.ok (some d)` writes
contents `d` to the destination. -/
structure Backend where
  get_cache_dir : FPath
  get_tarball_url : String → Option Nat → Option String → Except CliError Component
  raw_download : String → Except CliError (Option FData)

/-- A backend raw download recorded in the effect trace. -/
inductive NetEff where
  | download (url : String) (dest : FPath)
deriving DecidableEq

/-- `get_cache_dir` (the free function in `src/storage/download.rs`):
environment absent joins `globals`, environment present joins
`environments/<env>`, then the name, then the rendered version. -/
def get_cache_dir (backend : Backend) (name : String) (version : Nat)
    (env : Option String) : FPath :=
  let cache := backend.get_cache_dir
  pathJoin
    (pathJoin
      (match env with
       | none => pathJoin cache "globals"
       | some e => pathJoin (pathJoin cache "environments") e)
      name)
    (toString version)

/-- `is_cached`: the computed cache directory exists and is a directory. -/
def is_cached (backend : Backend) (name : String) (version : Nat)
    (env : Option String) (fs : FS) : Bool :=
  fs.isDir (get_cache_dir backend name version env)

/-- `store_tarball`: ensure the cache directory exists, then move
`./<name>.tar` from the current directory into it (`fs::copy` then
`fs::remove_file`); a missing source file is `MissingTarball`. -/
def store_tarball (backend : Backend) (name : String) (version : Nat)
    (env : Option String) (fs : FS) : Except CliError Unit × FS :=
  let destdir := get_cache_dir backend name version env
  let fs1 := if !(fs.isDir destdir) then fs.createDirAll destdir else fs
  let tarname := name ++ ".tar"
  let dest := pathJoin destdir tarname
  let src := pathJoin "." tarname
  if !(fs1.isFile src) then (.error .MissingTarball, fs1)
  else
    match fs1.readFile src with
    | none => (.error (.FilesystemFailure "copy"), fs1)
    | some d => (.ok (), (fs1.writeFile dest d).removeFile src)

/-- The raw-download step of the caching layer: invoke the backend (always
recorded as a download effect); on success the backend may or may not have
produced the destination file. -/
def raw_download (backend : Backend) (url : String) (dest : FPath) (fs : FS) :
    Except CliError Unit × FS × List NetEff :=
  match backend.raw_download url with
  | .error e => (.error e, fs, [.download url dest])
  | .ok none => (.ok (), fs, [.download url dest])
  | .ok (some d) => (.ok (), fs.writeFile dest d, [.download url dest])

/-- `GzDecoder` + `tar::Archive` (external crates): an archive file decodes
to its entries; anything else fails as one extraction failure. -/
def gz_decode (d : FData) : Except CliError (List (String × String)) :=
  match d with
  | .archive entries => .ok entries
  | .raw _ => .error (.FilesystemFailure "corrupt archive")

/-- `archive.unpack`: write every entry below the extraction directory. -/
def unpack_entries (extract_path : FPath) (entries : List (String × String))
    (fs : FS) : FS :=
  entries.foldl (fun a e => a.writeFile (pathJoin extract_path e.1) (.raw e.2)) fs

/-- `extract_tarball_to_input`: open and decode the tarball, remove any
existing `./INPUT/<component>` (result ignored), recreate it, and unpack
into it.  Decoding is modelled up-front (the embedding has no streams). -/
def extract_tarball_to_input (tarname : FPath) (component : String) (fs : FS) :
    Except CliError Unit × FS :=
  match fs.readFile tarname with
  | none => (.error (.FilesystemFailure "open"), fs)
  | some d =>
    match gz_decode d with
    | .error e => (.error e, fs)
    | .ok entries =>
      let extract_path := pathJoin "./INPUT" component
      let fs1 := (fs.removeDirAll extract_path).createDirAll extract_path
      (.ok (), unpack_entries extract_path entries fs1)

/-- `retrieve_published_component`: resolve, download-and-store on a cache
miss (download lands at `./<name>.tar` in the current directory, keyed by
the caller-supplied name), assert the resolved key is cached (`assert!`
modelled as the `PanicAssert` outcome), and return the cached tarball path
(directory keyed by the resolved component's name, file named after the
caller-supplied name). -/
def retrieve_published_component (backend : Backend) (name : String)
    (version : Option Nat) (env : Option String) (fs : FS) :
    Except CliError (FPath × Component) × FS × List NetEff :=
  match backend.get_tarball_url name version env with
  | .error e => (.error e, fs, [])
  | .ok component =>
    let step : Except CliError Unit × FS × List NetEff :=
      if !(is_cached backend component.name component.version env fs) then
        let local_tarball := pathJoin "." (name ++ ".tar")
        match raw_download backend component.tarball local_tarball fs with
        | (.error e, fs1, effs) => (.error e, fs1, effs)
        | (.ok _, fs1, effs) =>
          match store_tarball backend name component.version env fs1 with
          | (.error e, fs2) => (.error e, fs2, effs)
          | (.ok _, fs2) => (.ok (), fs2, effs)
      else (.ok (), fs, [])
    match step with
    | (.error e, fs1, effs) => (.error e, fs1, effs)
    | (.ok _, fs1, effs) =>
      if !(is_cached backend component.name component.version env fs1) then
        (.error (.PanicAssert "cached component"), fs1, effs)
      else
        let tarname :=
          pathJoin (get_cache_dir backend component.name component.version env)
            (name ++ ".tar")
        (.ok (tarname, component), fs1, effs)

/-- `unpack_published_component`: retrieve, then extract into
`./INPUT/<name>`. -/
def unpack_published_component (backend : Backend) (name : String)
    (version : Option Nat) (env : Option String) (fs : FS) :
    Except CliError Component × FS × List NetEff :=
  match retrieve_published_component backend name version env fs with
  | (.error e, fs1, effs) => (.error e, fs1, effs)
  | (.ok (tarname, component), fs1, effs) =>
    match extract_tarball_to_input tarname name fs1 with
    | (.error e, fs2) => (.error e, fs2, effs)
    | (.ok _, fs2) => (.ok component, fs2, effs)

/-- The deterministic stash location
`<root>/stash/<name>/<code>/<name>.tar.gz`. -/
def stash_tarpath (backend : Backend) (name code : String) : FPath :=
  pathJoin
    (pathJoin (pathJoin (pathJoin backend.get_cache_dir "stash") name) code)
    (name ++ ".tar.gz")

/-- `retrieve_stashed_component`: purely local lookup of the deterministic
stash path; `MissingStashArtifact` if the file is absent. -/
def retrieve_stashed_component (backend : Backend) (name code : String)
    (fs : FS) : Except CliError FPath × FS :=
  let tarpath := stash_tarpath backend name code
  if !(fs.isFile tarpath) then
    (.error (.MissingStashArtifact (name ++ "/" ++ code)), fs)
  else
    (.ok tarpath, fs)

/-- `unpack_stashed_component`: retrieve from stash, then extract into
`./INPUT/<name>`. -/
def unpack_stashed_component (backend : Backend) (name code : String)
    (fs : FS) : Except CliError Unit × FS :=
  match retrieve_stashed_component backend name code fs with
  | (.error e, fs1) => (.error e, fs1)
  | (.ok tarpath, fs1) =>
    match extract_tarball_to_input tarpath name fs1 with
    | (.error e, fs2) => (.error e, fs2)
    | (.ok _, fs2) => (.ok (), fs2)

/-- Modelled from the spec: `core::output::tar` is not under `src/`; per
§4.4 it archives the current build-output directory (`./OUTPUT`) into the
given destination file as a compressed archive.  Entries carry their paths
relative to `./OUTPUT` with raw contents rendered as-is (archive-typed
contents are opaque to the tar writer and rendered empty). -/
def output_tar (dest : FPath) (fs : FS) : Except CliError Unit × FS :=
  let entries := (filesUnder "./OUTPUT" fs).map
    (fun f => (String.mk (f.1.data.drop (("./OUTPUT/").data.length)),
               match f.2 with
               | .raw s => s
               | .archive _ => ""))
  (.ok (), fs.writeFile dest (.archive entries))

/-- `stash_output`: create the stash directory for `(name, code)`, tar the
build output straight into it, then copy `./OUTPUT/lockfile.json`
alongside. -/
def stash_output (backend : Backend) (name code : String) (fs : FS) :
    Except CliError Unit × FS :=
  let destdir :=
    pathJoin (pathJoin (pathJoin backend.get_cache_dir "stash") name) code
  let fs1 := fs.createDirAll destdir
  match output_tar (pathJoin destdir (name ++ ".tar.gz")) fs1 with
  | (.error e, fs2) => (.error e, fs2)
  | (.ok _, fs2) =>
    match fs2.readFile "./OUTPUT/lockfile.json" with
    | none => (.error (.FilesystemFailure "copy lockfile"), fs2)
    | some d => (.ok (), fs2.writeFile (pathJoin destdir "lockfile.json") d)

/-- The numeric value of a decimal digit character. -/
def digitVal (c : Char) : Nat := c.toNat - 48

/-- The number denoted by a list of decimal digit characters. -/
def digitsVal (l : List Char) : Nat := l.foldl (fun a c => 10 * a + digitVal c) 0

/-- The pure contents a successful extraction leaves below the extraction
directory: the archive's entries, later entries shadowing earlier ones. -/
def unpacked_view (p : FPath) (entries : List (String × String)) :
    List (FPath × FData) :=
  entries.foldl
    (fun acc e =>
      (pathJoin p e.1, FData.raw e.2) :: acc.filter (fun f => f.1 != pathJoin p e.1))
    []

/-- A concrete backend with root `/r` whose resolution always fails
(only its cache root is relevant where it is used). -/
def backendA : Backend :=
  { get_cache_dir := "/r",
    get_tarball_url := fun _ _ _ => .error .MissingTarball,
    raw_download := fun _ => .ok none }

/-- A concrete backend with root `/c` resolving every reference to
component `n`, version 1, url `u`, whose downloads produce an archive. -/
def backendResolve : Backend :=
  { get_cache_dir := "/c",
    get_tarball_url := fun _ _ _ => .ok { name := "n", version := 1, tarball := "u" },
    raw_download := fun _ => .ok (some (.archive [("f", "x")])) }

/-- A concrete backend whose raw download reports success without
producing the destination file. -/
def backendGhostDownload : Backend :=
  { get_cache_dir := "/c",
    get_tarball_url := fun _ _ _ => .ok { name := "n", version := 1, tarball := "u" },
    raw_download := fun _ => .ok none }

/-- A concrete backend resolving references to a component of a different
name than the one requested. -/
def backendRenames : Backend :=
  { get_cache_dir := "/c",
    get_tarball_url := fun _ _ _ => .ok { name := "other", version := 1, tarball := "u" },
    raw_download := fun _ => .ok (some (.raw "x")) }

/-- The empty filesystem. -/
def fsEmpty : FS := { files := [], dirs := [] }

/-- A filesystem holding a cached tarball for key `(n, 1, global)` under
root `/c` and a stashed archive for `(n, z)`. -/
def fsCachedStash : FS :=
  { files := [("/c/globals/n/1/n.tar", .archive [("a", "1"), ("b", "2")]),
              ("/c/stash/n/z/n.tar.gz", .archive [("s", "3")])],
    dirs := ["/c/globals/n/1"] }

/-- A filesystem holding a build-output directory with a lockfile. -/
def fsOutput : FS :=
  { files := [("./OUTPUT/lockfile.json", .raw "lock"), ("./OUTPUT/bin", .raw "b")],
    dirs := ["./OUTPUT"] }

theorem digitVal_digitChar (d : Nat) (h : d < 10) :
    digitVal (Nat.digitChar d) = d := by
  interval_cases d <;> decide

theorem toDigitsCore_spec (f : Nat) :
    ∀ (n : Nat) (ds : List Char), n < f →
      ∃ pfx, Nat.toDigitsCore 10 f n ds = pfx ++ ds ∧ digitsVal pfx = n := by
  induction f with
  | zero => intro n ds h; exact absurd h (Nat.not_lt_zero n)
  | succ f ih =>
    intro n ds h
    by_cases h0 : n / 10 = 0
    · have hlt10 : n < 10 := by omega
      refine ⟨[Nat.digitChar (n % 10)], ?_, ?_⟩
      · simp [Nat.toDigitsCore, h0]
      · have hn : n % 10 = n := Nat.mod_eq_of_lt hlt10
        rw [hn]
        simp [digitsVal, digitVal_digitChar _ hlt10]
    · have hn : 0 < n := Nat.pos_of_ne_zero (fun hz => h0 (by simp [hz]))
      have hlt : n / 10 < f :=
        lt_of_lt_of_le (Nat.div_lt_self hn (by norm_num)) (Nat.lt_succ_iff.mp h)
      obtain ⟨pfx, hp, hv⟩ := ih (n / 10) (Nat.digitChar (n % 10) :: ds) hlt
      refine ⟨pfx ++ [Nat.digitChar (n % 10)], ?_, ?_⟩
      · simp only [Nat.toDigitsCore, h0, if_false]
        rw [hp]
        simp
      · rw [digitsVal, List.foldl_append]
        have : List.foldl (fun a c => 10 * a + digitVal c) 0 pfx = n / 10 := hv
        simp [this, digitVal_digitChar _ (Nat.mod_lt _ (by norm_num))]
        omega

theorem digitsVal_toDigits (n : Nat) : digitsVal (Nat.toDigits 10 n) = n := by
  obtain ⟨pfx, hp, hv⟩ := toDigitsCore_spec (n + 1) n [] (Nat.lt_succ_self n)
  have : Nat.toDigits 10 n = pfx := by simpa [Nat.toDigits] using hp
  rw [this]; exact hv

theorem natToString_inj {m n : Nat} (h : toString m = toString n) : m = n := by
  have hm : (Nat.toDigits 10 m).asString = (Nat.toDigits 10 n).asString := h
  have hd : Nat.toDigits 10 m = Nat.toDigits 10 n := congrArg String.data hm
  have := digitsVal_toDigits m
  rw [hd, digitsVal_toDigits] at this
  exact this.symm

theorem pathJoin_data (a b : String) :
    (pathJoin a b).data = a.data ++ '/' :: b.data := by
  simp [pathJoin]

theorem pathJoin_ne_dot (a b : String) : pathJoin a b ≠ "." := by
  intro h
  have hd := congrArg String.data h
  rw [pathJoin_data] at hd
  have hl := congrArg List.length hd
  rw [List.length_append, List.length_cons] at hl
  have hdot : (("." : String).data).length = 1 := rfl
  rw [hdot] at hl
  have ha : a.data = [] := List.length_eq_zero.mp (by omega)
  have hb : b.data = [] := List.length_eq_zero.mp (by omega)
  rw [ha, hb] at hd
  exact absurd hd (by decide)

theorem pathJoin_left_inj {a b t : String} (h : pathJoin a t = pathJoin b t) :
    a = b := by
  have hd := congrArg String.data h
  rw [pathJoin_data, pathJoin_data] at hd
  exact String.ext (List.append_cancel_right hd)

theorem pathJoin_right_inj {a s t : String} (h : pathJoin a s = pathJoin a t) :
    s = t := by
  have hd := congrArg String.data h
  rw [pathJoin_data, pathJoin_data] at hd
  have := List.append_cancel_left hd
  exact String.ext (List.cons_injective.eq_iff.mp this)

theorem tgz_ne_lockfile (name : String) :
    name ++ ".tar.gz" ≠ "lockfile.json" := by
  intro h
  have hd := congrArg String.data h
  rw [String.data_append] at hd
  have hlen := congrArg List.length hd
  have l7 : (".tar.gz".data).length = 7 := by decide
  have l13 : ("lockfile.json".data).length = 13 := by decide
  rw [List.length_append, l7, l13] at hlen
  have h13 : ("lockfile.json".data) = ("lockfi".data) ++ ("le.json".data) := by decide
  rw [h13] at hd
  have l7' : ("le.json".data).length = 7 := by decide
  have := (List.append_inj' hd (by rw [l7, l7'])).2
  exact absurd this (by decide)

theorem any_eq_find?_isSome {α : Type} (l : List α) (p : α → Bool) :
    l.any p = (l.find? p).isSome := by
  induction l with
  | nil => rfl
  | cons x xs ih =>
    rw [List.any_cons, List.find?_cons]
    cases hx : p x with
    | true => simp
    | false => simp [ih]

theorem FS.isFile_eq_readFile (fs : FS) (p : FPath) :
    fs.isFile p = (fs.readFile p).isSome := by
  unfold FS.isFile FS.readFile
  rw [any_eq_find?_isSome]
  cases fs.files.find? (fun f => f.1 == p) <;> rfl

theorem find?_filter_ne (l : List (FPath × FData)) (p q : FPath) (h : q ≠ p) :
    ((l.filter (fun f => f.1 != p)).find? (fun f => f.1 == q))
      = l.find? (fun f => f.1 == q) := by
  induction l with
  | nil => rfl
  | cons x xs ih =>
    by_cases hq : x.1 = q
    · rw [List.filter_cons_of_pos (by simp [hq, bne_iff_ne, h])]
      rw [List.find?_cons_of_pos _ (by simp [hq]), List.find?_cons_of_pos _ (by simp [hq])]
    · by_cases hp : x.1 = p
      · rw [List.filter_cons_of_neg (by simp [hp, bne_iff_ne]),
            List.find?_cons_of_neg _ (by simp [hq]), ih]
      · rw [List.filter_cons_of_pos (by simp [hp, bne_iff_ne]),
            List.find?_cons_of_neg _ (by simp [hq]), List.find?_cons_of_neg _ (by simp [hq]), ih]

theorem FS.readFile_writeFile_self (fs : FS) (p : FPath) (d : FData) :
    (fs.writeFile p d).readFile p = some d := by
  unfold FS.writeFile FS.readFile
  rw [List.find?_cons_of_pos _ (by simp)]
  rfl

theorem FS.readFile_writeFile_ne (fs : FS) (p q : FPath) (d : FData) (h : q ≠ p) :
    (fs.writeFile p d).readFile q = fs.readFile q := by
  unfold FS.writeFile FS.readFile
  rw [List.find?_cons_of_neg _ (by simp only [beq_iff_eq]; exact Ne.symm h),
      find?_filter_ne _ _ _ h]

theorem FS.readFile_removeFile_ne (fs : FS) (p q : FPath) (h : q ≠ p) :
    (fs.removeFile p).readFile q = fs.readFile q := by
  unfold FS.removeFile FS.readFile
  rw [find?_filter_ne _ _ _ h]

theorem FS.isFile_removeFile_self (fs : FS) (p : FPath) :
    (fs.removeFile p).isFile p = false := by
  unfold FS.removeFile FS.isFile
  simp [List.any_eq_true, List.mem_filter]

theorem FS.isFile_writeFile_self (fs : FS) (p : FPath) (d : FData) :
    (fs.writeFile p d).isFile p = true := by
  unfold FS.writeFile FS.isFile
  simp [List.any_cons]

theorem FS.isDir_createDirAll_self (fs : FS) (p : FPath) :
    (fs.createDirAll p).isDir p = true := by
  simp [FS.createDirAll, FS.isDir, List.any_append]

theorem FS.isDir_writeFile (fs : FS) (q p : FPath) (d : FData) :
    (fs.writeFile p d).isDir q = fs.isDir q := rfl

theorem FS.isDir_removeFile (fs : FS) (q p : FPath) :
    (fs.removeFile p).isDir q = fs.isDir q := rfl

theorem FS.isDir_createDirAll_of_isDir (fs : FS) (q p : FPath)
    (h : fs.isDir q = true) : (fs.createDirAll p).isDir q = true := by
  simp [FS.createDirAll, FS.isDir, List.any_append] at h ⊢
  exact Or.inl h

theorem filesUnder_removeDirAll_self (fs : FS) (p : FPath) :
    filesUnder p (fs.removeDirAll p) = [] := by
  unfold filesUnder FS.removeDirAll
  simp [List.filter_filter]

theorem filesUnder_createDirAll (fs : FS) (p q : FPath) :
    filesUnder p (fs.createDirAll q) = filesUnder p fs := rfl

theorem isUnder_pathJoin (p s : String) : isUnder p (pathJoin p s) = true := by
  unfold isUnder
  rw [pathJoin_data]
  have h : p.data ++ '/' :: s.data = (p.data ++ ['/']) ++ s.data := by simp
  rw [h]
  simp [List.isPrefixOf_iff_prefix]

theorem filesUnder_writeFile_under (fs : FS) (p : FPath) (s : String) (d : FData) :
    filesUnder p (fs.writeFile (pathJoin p s) d)
      = (pathJoin p s, d) :: (filesUnder p fs).filter (fun f => f.1 != pathJoin p s) := by
  unfold filesUnder FS.writeFile
  rw [List.filter_cons_of_pos (by simp [isUnder_pathJoin])]
  congr 1
  rw [List.filter_filter, List.filter_filter]
  congr 1
  funext f
  exact Bool.and_comm _ _

theorem filesUnder_unpack_entries (p : FPath) (entries : List (String × String)) :
    ∀ fs : FS, filesUnder p (unpack_entries p entries fs)
      = entries.foldl
          (fun acc e =>
            (pathJoin p e.1, FData.raw e.2) :: acc.filter (fun f => f.1 != pathJoin p e.1))
          (filesUnder p fs) := by
  induction entries with
  | nil => intro fs; rfl
  | cons e es ih =>
    intro fs
    have step : unpack_entries p (e :: es) fs
        = unpack_entries p es (fs.writeFile (pathJoin p e.1) (FData.raw e.2)) := rfl
    rw [step, ih, filesUnder_writeFile_under]
    rfl

theorem seg_inj :
    ∀ (a b c d : List Char), '/' ∉ a → '/' ∉ b →
      a ++ '/' :: c = b ++ '/' :: d → a = b ∧ c = d := by
  intro a
  induction a with
  | nil =>
    intro b c d _ hb h
    cases b with
    | nil => simpa using h
    | cons y ys =>
      simp only [List.nil_append, List.cons_append, List.cons.injEq] at h
      exact absurd (h.1 ▸ List.mem_cons_self y ys) (h.1 ▸ hb)
  | cons x xs ih =>
    intro b c d ha hb h
    cases b with
    | nil =>
      simp only [List.cons_append, List.nil_append, List.cons.injEq] at h
      exact absurd (h.1 ▸ List.mem_cons_self x xs) (fun hm => ha (h.1 ▸ hm))
    | cons y ys =>
      simp only [List.cons_append, List.cons.injEq] at h
      obtain ⟨hxy, hrest⟩ := h
      have ha' : '/' ∉ xs := fun hm => ha (List.mem_cons_of_mem x hm)
      have hb' : '/' ∉ ys := fun hm => hb (List.mem_cons_of_mem y hm)
      obtain ⟨h1, h2⟩ := ih ys c d ha' hb' hrest
      exact ⟨by rw [hxy, h1], h2⟩

theorem foldl_append_eq_join {α β : Type} (f : α → List β) (l : List α) :
    ∀ init : List β, l.foldl (fun a m => a ++ f m) init = init ++ (l.map f).flatten := by
  induction l with
  | nil => intro init; simp
  | cons x xs ih => intro init; simp [ih]

/-- C4: a dry-run launch (`printonly = true`) is deterministic and
side-effect-free: its only effect is printing the rendered invocation —
runtime name, run subcommand, remove-on-exit flag, one mount flag per
configured mount (`src:dest` with `:ro` when read-only), the implicit
read-only credential-file mount and the current-directory mount, the
working-directory flag, the user flag, the tty flag selected by
`interactive`, the image reference, then the command tokens verbatim, in
that order — with no `id` invocation and no spawned process. -/
theorem docker_run_printonly_renders (cfg : Config) (command : List String)
    (interactive : Bool) (w : World) :
    docker_run cfg command interactive true w
      = (.ok (), [.println ("docker " ++ String.intercalate " "
          (["run", "--rm"]
            ++ (cfg.mounts.map (fun m =>
                 ["-v", m.src ++ ":" ++ m.dest ++ (if m.readonly then ":ro" else "")])).flatten
            ++ ["-v", pathJoin w.home ".gitconfig" ++ ":/home/lal/.gitconfig:ro",
                "-v", w.pwd ++ ":/home/lal/volume",
                "-w", "/home/lal/volume",
                "--user", "lal",
                (if interactive then "-it" else "-t"),
                cfg.container]
            ++ command))]) := by
  simp only [docker_run, if_true]
  rw [foldl_append_eq_join]

/-- C5: in a real launch (`printonly = false`), exit code zero yields
success, a non-zero exit code `c` yields `SubprocessFailure c`, and an
indeterminate exit (no observable code) yields `SubprocessFailure 1001`,
the fixed sentinel. -/
theorem docker_run_exit_handling (cfg : Config) (command : List String)
    (interactive : Bool) (w : World) :
    (w.docker_status = some 0 →
      (docker_run cfg command interactive false w).1 = .ok ()) ∧
    (∀ c : Int, w.docker_status = some c → c ≠ 0 →
      (docker_run cfg command interactive false w).1
        = .error (.SubprocessFailure c)) ∧
    (w.docker_status = none →
      (docker_run cfg command interactive false w).1
        = .error (.SubprocessFailure 1001)) := by
  refine ⟨?_, ?_, ?_⟩
  · intro h; simp [docker_run, h]
  · intro c h hc; simp [docker_run, h, hc]
  · intro h; simp [docker_run, h]

theorem docker_run_exit_handling_witness :
    (docker_run { container := "img:1", mounts := [] } ["build"] false false
        { home := "/home/u", pwd := "/w", uid := 1000, gid := 1000,
          docker_status := some 3 }).1
      = .error (.SubprocessFailure 3) :=
  (docker_run_exit_handling _ _ _ _).2.1 3 rfl (by decide)

/-- C8: the permission check passes exactly when both identity lookups
report 1000; it fails with a `DockerPermissionSafety` error whose message
names the UID when the user id differs and the GID when (only) the group id
differs, and the two messages are always distinct; in a real launch the
failure never aborts: docker is spawned and the launch result is
independent of uid/gid. -/
theorem permission_check_outcomes (uid gid : Nat) (cfg : Config)
    (command : List String) (interactive : Bool) (w : World) :
    ((permission_sanity_check uid gid).1 = .ok () ↔ uid = 1000 ∧ gid = 1000) ∧
    (uid ≠ 1000 → (permission_sanity_check uid gid).1
        = .error (.DockerPermissionSafety ("UID is " ++ toString uid ++ ", not 1000"))) ∧
    (uid = 1000 → gid ≠ 1000 → (permission_sanity_check uid gid).1
        = .error (.DockerPermissionSafety ("GID is " ++ toString gid ++ ", not 1000"))) ∧
    (∀ u g : Nat, ("UID is " ++ toString u ++ ", not 1000" : String)
        ≠ "GID is " ++ toString g ++ ", not 1000") ∧
    ((docker_run cfg command interactive false w).2.any Effect.isSpawn = true) ∧
    ((docker_run cfg command interactive false w).1
        = (docker_run cfg command interactive false
            { w with uid := 1000, gid := 1000 }).1) := by
  refine ⟨?_, ?_, ?_, ?_, ?_, ?_⟩
  · constructor
    · intro h
      by_cases hu : uid = 1000
      · by_cases hg : gid = 1000
        · exact ⟨hu, hg⟩
        · simp [permission_sanity_check, bne_iff_ne, hu, hg] at h
      · simp [permission_sanity_check, bne_iff_ne, hu] at h
    · rintro ⟨hu, hg⟩
      simp [permission_sanity_check, hu, hg]
  · intro hu
    simp [permission_sanity_check, bne_iff_ne, hu]
  · intro hu hg
    simp [permission_sanity_check, bne_iff_ne, hu, hg]
  · intro u g h
    have hd := congrArg String.data h
    simp only [String.data_append] at hd
    simp only [List.cons_append] at hd
    injection hd with hU _
    exact absurd hU (by decide)
  · simp [docker_run, Effect.isSpawn, List.any_append]
  · simp [docker_run]

theorem permission_check_outcomes_witness :
    ((permission_sanity_check 777 1000).1
        = .error (.DockerPermissionSafety "UID is 777, not 1000")) ∧
    ((permission_sanity_check 1000 5).1
        = .error (.DockerPermissionSafety "GID is 5, not 1000")) ∧
    ((permission_sanity_check 1000 1000).1 = .ok ()) ∧
    ((docker_run { container := "img:1", mounts := [] } ["build"] false false
        { home := "/h", pwd := "/w", uid := 777, gid := 5,
          docker_status := some 0 }).1 = .ok ()) :=
  ⟨(permission_check_outcomes 777 1000 { container := "img:1", mounts := [] }
      ["build"] false
      { home := "/h", pwd := "/w", uid := 777, gid := 5, docker_status := some 0 }).2.1
    (by decide),
   (permission_check_outcomes 1000 5 { container := "img:1", mounts := [] }
      ["build"] false
      { home := "/h", pwd := "/w", uid := 777, gid := 5, docker_status := some 0 }).2.2.1
    rfl (by decide),
   (permission_check_outcomes 1000 1000 { container := "img:1", mounts := [] }
      ["build"] false
      { home := "/h", pwd := "/w", uid := 777, gid := 5, docker_status := some 0 }).1.mpr
    ⟨rfl, rfl⟩,
   rfl⟩

/-- C9: `shell` launches bash interactively: it passes interactive mode
(`-it` is rendered) and runs `/bin/bash`; a supplied command string is
passed through the inline-execution flag `-c`, wrapped in two pairs of
double quotes, not executed directly as command tokens. -/
theorem shell_interactive_bash (cfg : Config) (c : String) (w : World) :
    shell cfg true (some c) w
      = (.ok (), [.println ("docker " ++ String.intercalate " "
          (["run", "--rm"]
            ++ (cfg.mounts.map (fun m =>
                 ["-v", m.src ++ ":" ++ m.dest ++ (if m.readonly then ":ro" else "")])).flatten
            ++ ["-v", pathJoin w.home ".gitconfig" ++ ":/home/lal/.gitconfig:ro",
                "-v", w.pwd ++ ":/home/lal/volume",
                "-w", "/home/lal/volume",
                "--user", "lal",
                "-it",
                cfg.container]
            ++ ["/bin/bash", "-c", "\"\"" ++ c ++ "\"\""]))]) ∧
    shell cfg true none w
      = (.ok (), [.println ("docker " ++ String.intercalate " "
          (["run", "--rm"]
            ++ (cfg.mounts.map (fun m =>
                 ["-v", m.src ++ ":" ++ m.dest ++ (if m.readonly then ":ro" else "")])).flatten
            ++ ["-v", pathJoin w.home ".gitconfig" ++ ":/home/lal/.gitconfig:ro",
                "-v", w.pwd ++ ":/home/lal/volume",
                "-w", "/home/lal/volume",
                "--user", "lal",
                "-it",
                cfg.container]
            ++ ["/bin/bash"]))]) ∧
    Effect.spawnDocker
        (["run", "--rm"]
          ++ (cfg.mounts.map (fun m =>
               ["-v", m.src ++ ":" ++ m.dest ++ (if m.readonly then ":ro" else "")])).flatten
          ++ ["-v", pathJoin w.home ".gitconfig" ++ ":/home/lal/.gitconfig:ro",
              "-v", w.pwd ++ ":/home/lal/volume",
              "-w", "/home/lal/volume",
              "--user", "lal",
              "-it",
              cfg.container]
          ++ ["/bin/bash", "-c", "\"\"" ++ c ++ "\"\""])
      ∈ (shell cfg false (some c) w).2 := by
  refine ⟨?_, ?_, ?_⟩
  · have h := docker_run_printonly_renders cfg ["/bin/bash", "-c", "\"\"" ++ c ++ "\"\""] true w
    simp only [shell, h, if_true]
    rfl
  · have h := docker_run_printonly_renders cfg ["/bin/bash"] true w
    simp only [shell, h, if_true]
    rfl
  · simp [shell, docker_run, foldl_append_eq_join, List.mem_append]

theorem FS.isFile_createDirAll (fs : FS) (q p : FPath) :
    (fs.createDirAll p).isFile q = fs.isFile q := rfl

theorem FS.readFile_createDirAll (fs : FS) (q p : FPath) :
    (fs.createDirAll p).readFile q = fs.readFile q := rfl

theorem FS.files_createDirAll (fs : FS) (p : FPath) :
    (fs.createDirAll p).files = fs.files := rfl

theorem get_cache_dir_ne_dot (backend : Backend) (n : String) (v : Nat)
    (e : Option String) : get_cache_dir backend n v e ≠ "." := by
  unfold get_cache_dir
  exact pathJoin_ne_dot _ _

theorem get_cache_dir_data (backend : Backend) (n : String) (v : Nat)
    (e : Option String) :
    (get_cache_dir backend n v e).data
      = backend.get_cache_dir.data ++ '/' ::
          (match e with
           | none => ("globals").data ++ '/' :: (n.data ++ '/' :: (toString v).data)
           | some s => ("environments").data ++ '/' ::
               (s.data ++ '/' :: (n.data ++ '/' :: (toString v).data))) := by
  cases e <;> simp [get_cache_dir, pathJoin_data, List.append_assoc]

/-- C3 counterexample: two distinct keys — name `n` in environment `e/x`
versus name `x/n` in environment `e` — map to the same cache path, so
`get_cache_dir` is not injective over (name, version, env) as stated. -/
theorem get_cache_dir_collision :
    get_cache_dir backendA "n" 1 (some "e/x")
        = get_cache_dir backendA "x/n" 1 (some "e")
      ∧ (("n" : String), (1 : Nat), (some "e/x" : Option String))
          ≠ ("x/n", 1, some "e") := by
  constructor
  · rfl
  · decide

/-- C3 (amended): `get_cache_dir` is pure — the same key always yields the
same path — and it is injective over (name, version, env) for keys whose
name and environment contain no path separator `/` (with separators inside
a name or environment value, two distinct keys can render the same path;
see the counterexample). -/
theorem get_cache_dir_pure_injective (backend : Backend)
    (n1 n2 : String) (v1 v2 : Nat) (e1 e2 : Option String)
    (hn1 : '/' ∉ n1.data) (hn2 : '/' ∉ n2.data)
    (he1 : ∀ s, e1 = some s → '/' ∉ s.data)
    (he2 : ∀ s, e2 = some s → '/' ∉ s.data) :
    (get_cache_dir backend n1 v1 e1 = get_cache_dir backend n1 v1 e1) ∧
    (get_cache_dir backend n1 v1 e1 = get_cache_dir backend n2 v2 e2
      ↔ (n1, v1, e1) = (n2, v2, e2)) := by
  refine ⟨rfl, ?_, ?_⟩
  · intro h
    have hd := congrArg String.data h
    rw [get_cache_dir_data, get_cache_dir_data] at hd
    have htail := List.cons_injective.eq_iff.mp (List.append_cancel_left hd)
    have hge : '/' ∉ ("globals").data := by decide
    have hee : '/' ∉ ("environments").data := by decide
    cases e1 with
    | none =>
      cases e2 with
      | none =>
        simp only at htail
        have h1 := (seg_inj _ _ _ _ hge hge htail).2
        obtain ⟨hn, hv⟩ := seg_inj _ _ _ _ hn1 hn2 h1
        have hn' : n1 = n2 := String.ext hn
        have hv' : v1 = v2 := natToString_inj (String.ext hv)
        rw [hn', hv']
      | some s2 =>
        simp only at htail
        have := (seg_inj _ _ _ _ hge hee htail).1
        exact absurd this (by decide)
    | some s1 =>
      cases e2 with
      | none =>
        simp only at htail
        have := (seg_inj _ _ _ _ hee hge htail).1
        exact absurd this (by decide)
      | some s2 =>
        simp only at htail
        have h1 := (seg_inj _ _ _ _ hee hee htail).2
        obtain ⟨hs, h2⟩ := seg_inj _ _ _ _ (he1 s1 rfl) (he2 s2 rfl) h1
        obtain ⟨hn, hv⟩ := seg_inj _ _ _ _ hn1 hn2 h2
        have hn' : n1 = n2 := String.ext hn
        have hv' : v1 = v2 := natToString_inj (String.ext hv)
        have hs' : s1 = s2 := String.ext hs
        rw [hn', hv', hs']
  · intro h
    simp only [Prod.mk.injEq] at h
    obtain ⟨h1, h2, h3⟩ := h
    rw [h1, h2, h3]

theorem get_cache_dir_pure_injective_witness :
    (get_cache_dir backendA "n" 1 none = get_cache_dir backendA "n" 1 none) ∧
    (get_cache_dir backendA "n" 1 none = get_cache_dir backendA "m" 2 (some "e")
      ↔ (("n" : String), (1 : Nat), (none : Option String)) = ("m", 2, some "e")) :=
  get_cache_dir_pure_injective backendA "n" "m" 1 2 none (some "e")
    (by decide) (by decide)
    (by intro s hs; cases hs)
    (by intro s hs; cases hs; decide)

/-- C2 counterexample: with a backend whose download reports success
without producing the file, `retrieve_published_component` on an empty
filesystem fails with `MissingTarball`, yet afterwards the cache directory
for the resolved key exists — `is_cached` is true — while the cache
directory holds no file at all: the directory appears (and `is_cached`
becomes true) before its content is complete. -/
theorem cache_dir_appears_before_content :
    (retrieve_published_component backendGhostDownload "n" none none fsEmpty).1
        = .error .MissingTarball
      ∧ is_cached backendGhostDownload "n" 1 none
          (retrieve_published_component backendGhostDownload "n" none none fsEmpty).2.1
          = true
      ∧ filesUnder (get_cache_dir backendGhostDownload "n" 1 none)
          (retrieve_published_component backendGhostDownload "n" none none fsEmpty).2.1
          = [] :=
  ⟨rfl, by decide, rfl⟩

/-- C2 (amended): cache writes are staged then moved — on a cache miss the
tarball is downloaded into the current working directory at `./<name>.tar`
(the sole download effect targets that staging path), and only then
relocated into the cache directory, whose parents are created as needed;
after a successful populate the content sits at the cached path and the
staged working copy is gone.  However the cache directory itself is
created before the move, so on a failed store the directory can already
exist — and `is_cached` report true — before its content is complete (see
the counterexample). -/
theorem retrieve_published_staged_then_moved
    (backend : Backend) (name : String) (version : Option Nat)
    (env : Option String) (fs : FS) (comp : Component) (d : FData)
    (hres : backend.get_tarball_url name version env = .ok comp)
    (hname : comp.name = name)
    (hmiss : is_cached backend comp.name comp.version env fs = false)
    (hdl : backend.raw_download comp.tarball = .ok (some d)) :
    (retrieve_published_component backend name version env fs).1
        = .ok (pathJoin (get_cache_dir backend comp.name comp.version env)
                (name ++ ".tar"), comp) ∧
    (retrieve_published_component backend name version env fs).2.2
        = [.download comp.tarball (pathJoin "." (name ++ ".tar"))] ∧
    (retrieve_published_component backend name version env fs).2.1.readFile
        (pathJoin (get_cache_dir backend comp.name comp.version env) (name ++ ".tar"))
        = some d ∧
    (retrieve_published_component backend name version env fs).2.1.isFile
        (pathJoin "." (name ++ ".tar")) = false := by
  have hmiss' : fs.isDir (get_cache_dir backend name comp.version env) = false := by
    rw [← hname]; exact hmiss
  have key : retrieve_published_component backend name version env fs
      = (.ok (pathJoin (get_cache_dir backend name comp.version env) (name ++ ".tar"),
              comp),
         ((((fs.writeFile (pathJoin "." (name ++ ".tar")) d).createDirAll
              (get_cache_dir backend name comp.version env)).writeFile
              (pathJoin (get_cache_dir backend name comp.version env) (name ++ ".tar"))
              d).removeFile (pathJoin "." (name ++ ".tar"))),
         [.download comp.tarball (pathJoin "." (name ++ ".tar"))]) := by
    simp only [retrieve_published_component, raw_download, store_tarball, is_cached,
      hres, hdl, hname, hmiss', FS.isDir_writeFile, FS.isFile_createDirAll,
      FS.isFile_writeFile_self, FS.readFile_createDirAll, FS.readFile_writeFile_self,
      FS.isDir_removeFile, FS.isDir_createDirAll_self, Bool.not_false, Bool.not_true,
      if_true, if_false, Bool.false_eq_true, ite_false, ite_true]
  have hne : pathJoin (get_cache_dir backend name comp.version env) (name ++ ".tar")
      ≠ pathJoin "." (name ++ ".tar") := by
    intro hcontra
    exact get_cache_dir_ne_dot backend name comp.version env (pathJoin_left_inj hcontra)
  rw [hname]
  refine ⟨?_, ?_, ?_, ?_⟩
  · rw [key]
  · rw [key]
  · rw [key]
    simp only []
    rw [FS.readFile_removeFile_ne _ _ _ hne, FS.readFile_writeFile_self]
  · rw [key]
    simp only []
    rw [FS.isFile_removeFile_self]

theorem retrieve_published_staged_then_moved_witness :
    (retrieve_published_component backendResolve "n" none none fsEmpty).1
        = .ok (pathJoin (get_cache_dir backendResolve "n" 1 none) ("n" ++ ".tar"),
               { name := "n", version := 1, tarball := "u" }) ∧
    (retrieve_published_component backendResolve "n" none none fsEmpty).2.2
        = [.download "u" (pathJoin "." ("n" ++ ".tar"))] ∧
    (retrieve_published_component backendResolve "n" none none fsEmpty).2.1.readFile
        (pathJoin (get_cache_dir backendResolve "n" 1 none) ("n" ++ ".tar"))
        = some (.archive [("f", "x")]) ∧
    (retrieve_published_component backendResolve "n" none none fsEmpty).2.1.isFile
        (pathJoin "." ("n" ++ ".tar")) = false :=
  retrieve_published_staged_then_moved backendResolve "n" none none fsEmpty
    { name := "n", version := 1, tarball := "u" } (.archive [("f", "x")])
    rfl rfl (by decide) rfl

theorem retrieve_published_ok_inv (backend : Backend) (name : String)
    (version : Option Nat) (env : Option String) (fs : FS) {p : FPath}
    {comp : Component} {fs1 : FS} {effs : List NetEff}
    (h : retrieve_published_component backend name version env fs
          = (.ok (p, comp), fs1, effs)) :
    backend.get_tarball_url name version env = .ok comp ∧
    is_cached backend comp.name comp.version env fs1 = true ∧
    p = pathJoin (get_cache_dir backend comp.name comp.version env)
          (name ++ ".tar") := by
  unfold retrieve_published_component at h
  split at h
  · simp at h
  · rename_i component heq
    split at h
    · dsimp only at h
      rcases hraw : raw_download backend component.tarball
        (pathJoin "." (name ++ ".tar")) fs with ⟨res, fsx, effsx⟩
      rw [hraw] at h
      cases res with
      | error e => simp at h
      | ok u =>
        rcases hst : store_tarball backend name component.version env fsx
          with ⟨sres, fsy⟩
        simp only [hst] at h
        cases sres with
        | error e => simp at h
        | ok u2 =>
          simp only [] at h
          split at h
          · simp at h
          · rename_i hcached
            simp only [Prod.mk.injEq, Except.ok.injEq] at h
            obtain ⟨⟨hp, hcomp⟩, hfs, heffs⟩ := h
            rw [← hcomp, ← hfs]
            refine ⟨heq, ?_, hp.symm⟩
            simpa using hcached
    · rename_i hhit
      dsimp only at h
      split at h
      · simp at h
      · rename_i hcached
        simp only [Prod.mk.injEq, Except.ok.injEq] at h
        obtain ⟨⟨hp, hcomp⟩, hfs, heffs⟩ := h
        rw [← hcomp, ← hfs]
        refine ⟨heq, ?_, hp.symm⟩
        simpa using hcached

theorem retrieve_published_hit (backend : Backend) (name : String)
    (version : Option Nat) (env : Option String) (fs : FS) (comp : Component)
    (hres : backend.get_tarball_url name version env = .ok comp)
    (hcached : is_cached backend comp.name comp.version env fs = true) :
    retrieve_published_component backend name version env fs
      = (.ok (pathJoin (get_cache_dir backend comp.name comp.version env)
              (name ++ ".tar"), comp), fs, []) := by
  simp only [retrieve_published_component, hres, hcached, Bool.not_true, if_false,
    Bool.false_eq_true, ite_false]

/-- C1: `retrieve_published_component` is idempotent per resolved key: after
any successful call, calling again with the same arguments hits the cache —
it performs no download (its download trace is empty), leaves the
filesystem unchanged, and returns the same cached tarball path and the same
resolved component as the first call. -/
theorem retrieve_published_idempotent (backend : Backend) (name : String)
    (version : Option Nat) (env : Option String) (fs fs1 : FS) (p : FPath)
    (comp : Component) (effs : List NetEff)
    (h : retrieve_published_component backend name version env fs
          = (.ok (p, comp), fs1, effs)) :
    retrieve_published_component backend name version env fs1
      = (.ok (p, comp), fs1, []) := by
  obtain ⟨hres, hcached, hp⟩ := retrieve_published_ok_inv backend name version env fs h
  rw [retrieve_published_hit backend name version env fs1 comp hres hcached, hp]

theorem retrieve_published_idempotent_witness :
    retrieve_published_component backendResolve "n" none none fsCachedStash
      = (.ok ("/c/globals/n/1/n.tar",
              { name := "n", version := 1, tarball := "u" }), fsCachedStash, []) :=
  retrieve_published_idempotent backendResolve "n" none none fsCachedStash
    fsCachedStash "/c/globals/n/1/n.tar"
    { name := "n", version := 1, tarball := "u" } [] rfl

theorem store_tarball_ok_isDir (backend : Backend) (name : String)
    (version : Nat) (env : Option String) (fs : FS) {u : Unit} {fs' : FS}
    (h : store_tarball backend name version env fs = (.ok u, fs')) :
    fs'.isDir (get_cache_dir backend name version env) = true := by
  unfold store_tarball at h
  dsimp only at h
  split at h
  · split at h
    · simp at h
    · split at h
      · simp at h
      · simp only [Prod.mk.injEq] at h
        rw [← h.2, FS.isDir_removeFile, FS.isDir_writeFile]
        exact FS.isDir_createDirAll_self _ _
  · rename_i hdir
    split at h
    · simp at h
    · split at h
      · simp at h
      · simp only [Prod.mk.injEq] at h
        rw [← h.2, FS.isDir_removeFile, FS.isDir_writeFile]
        simpa using hdir

theorem store_tarball_error_shape (backend : Backend) (name : String)
    (version : Nat) (env : Option String) (fs : FS) {e : CliError} {fs' : FS}
    (h : store_tarball backend name version env fs = (.error e, fs')) :
    e = .MissingTarball ∨ e = .FilesystemFailure "copy" := by
  unfold store_tarball at h
  dsimp only at h
  split at h
  · split at h
    · simp only [Prod.mk.injEq] at h
      injection h.1 with h1
      exact Or.inl h1.symm
    · split at h
      · simp only [Prod.mk.injEq] at h
        injection h.1 with h1
        exact Or.inr h1.symm
      · simp at h
  · split at h
    · simp only [Prod.mk.injEq] at h
      injection h.1 with h1
      exact Or.inl h1.symm
    · split at h
      · simp only [Prod.mk.injEq] at h
        injection h.1 with h1
        exact Or.inr h1.symm
      · simp at h

/-- C10: in `retrieve_published_component` the cache-hit check and the
post-store assertion key on the resolved component's name, while the
download filename and `store_tarball` key on the caller-supplied name;
under the precondition that the backend resolves the requested name to a
component of the same name (and, as a real backend, never itself reports
the embedding's panic outcome), the assertion's failure branch is
unreachable for every backend; without the precondition it is reachable:
a backend resolving `n` to a component named `other` makes the assertion
fail (second conjunct). -/
theorem retrieve_assert_unreachable (backend : Backend) (name : String)
    (version : Option Nat) (env : Option String) (fs : FS)
    (hsame : ∀ comp, backend.get_tarball_url name version env = .ok comp →
      comp.name = name)
    (hnop1 : ∀ m, backend.get_tarball_url name version env
      ≠ .error (.PanicAssert m))
    (hnop2 : ∀ url m, backend.raw_download url ≠ .error (.PanicAssert m)) :
    (∀ m, (retrieve_published_component backend name version env fs).1
        ≠ .error (.PanicAssert m)) ∧
    (retrieve_published_component backendRenames "n" none none fsEmpty).1
        = .error (.PanicAssert "cached component") := by
  refine ⟨?_, rfl⟩
  intro m
  rcases hres : backend.get_tarball_url name version env with e | component
  · simp only [retrieve_published_component, hres]
    intro hbad
    injection hbad with he
    exact hnop1 m (by rw [hres, he])
  · have hname := hsame component hres
    by_cases hc : is_cached backend component.name component.version env fs
    · rw [retrieve_published_hit backend name version env fs component hres hc]
      simp
    · have hc' : is_cached backend component.name component.version env fs = false := by
        simpa using hc
      rcases hdl : backend.raw_download component.tarball with e | od
      · simp only [retrieve_published_component, hres, hc', raw_download, hdl,
          Bool.not_false, if_true, ite_true]
        intro hbad
        injection hbad with he
        exact hnop2 _ m (by rw [hdl, he])
      · cases od with
        | none =>
          rcases hst : store_tarball backend name component.version env fs
            with ⟨sres, fs2⟩
          cases sres with
          | error e2 =>
            simp only [retrieve_published_component, hres, hc', raw_download, hdl,
              hst, Bool.not_false, if_true, ite_true]
            intro hbad
            injection hbad with he
            rcases store_tarball_error_shape backend name component.version env fs hst
              with h1 | h1
            · rw [h1] at he; exact CliError.noConfusion he
            · rw [h1] at he; exact CliError.noConfusion he
          | ok u =>
            have hdir := store_tarball_ok_isDir backend name component.version env fs hst
            have hcach2 : is_cached backend component.name component.version env fs2
                = true := by
              unfold is_cached; rw [hname]; exact hdir
            simp only [retrieve_published_component, hres, hc', raw_download, hdl,
              hst, hcach2, Bool.not_false, Bool.not_true, if_true, ite_true,
              Bool.false_eq_true, if_false, ite_false]
            simp
        | some d =>
          rcases hst : store_tarball backend name component.version env
            (fs.writeFile (pathJoin "." (name ++ ".tar")) d) with ⟨sres, fs2⟩
          cases sres with
          | error e2 =>
            simp only [retrieve_published_component, hres, hc', raw_download, hdl,
              hst, Bool.not_false, if_true, ite_true]
            intro hbad
            injection hbad with he
            rcases store_tarball_error_shape backend name component.version env
              (fs.writeFile (pathJoin "." (name ++ ".tar")) d) hst with h1 | h1
            · rw [h1] at he; exact CliError.noConfusion he
            · rw [h1] at he; exact CliError.noConfusion he
          | ok u =>
            have hdir := store_tarball_ok_isDir backend name component.version env
              (fs.writeFile (pathJoin "." (name ++ ".tar")) d) hst
            have hcach2 : is_cached backend component.name component.version env fs2
                = true := by
              unfold is_cached; rw [hname]; exact hdir
            simp only [retrieve_published_component, hres, hc', raw_download, hdl,
              hst, hcach2, Bool.not_false, Bool.not_true, if_true, ite_true,
              Bool.false_eq_true, if_false, ite_false]
            simp

theorem retrieve_assert_unreachable_witness :
    (∀ m, (retrieve_published_component backendResolve "n" none none fsEmpty).1
        ≠ .error (.PanicAssert m)) ∧
    (retrieve_published_component backendRenames "n" none none fsEmpty).1
        = .error (.PanicAssert "cached component") :=
  retrieve_assert_unreachable backendResolve "n" none none fsEmpty
    (fun comp h => by injection h with h1; rw [← h1])
    (fun m h => Except.noConfusion h)
    (fun url m h => Except.noConfusion h)

theorem extract_tarball_ok (tarname : FPath) (component : String) (fs : FS)
    (entries : List (String × String))
    (hread : fs.readFile tarname = some (.archive entries)) :
    extract_tarball_to_input tarname component fs
      = (.ok (), unpack_entries (pathJoin "./INPUT" component) entries
          ((fs.removeDirAll (pathJoin "./INPUT" component)).createDirAll
            (pathJoin "./INPUT" component))) := by
  simp only [extract_tarball_to_input, hread, gz_decode]

theorem filesUnder_extract (p : FPath) (entries : List (String × String))
    (fs : FS) :
    filesUnder p (unpack_entries p entries
        ((fs.removeDirAll p).createDirAll p))
      = unpacked_view p entries := by
  rw [filesUnder_unpack_entries, filesUnder_createDirAll,
    filesUnder_removeDirAll_self]
  rfl

/-- C6: `unpack_published_component` and `unpack_stashed_component` leave
`./INPUT/<name>/` containing exactly the unpacked archive's entries: any
prior contents of that directory are removed first, the directory is
recreated, and the archive extracted fresh, so the directory's resulting
contents are a function of the archive alone — the same `unpacked_view` —
no matter what unrelated files the directory previously held. -/
theorem unpack_leaves_exact_contents (backend : Backend) (name : String)
    (version : Option Nat) (env : Option String) (code : String)
    (fs fs1 fsS : FS) (tarname : FPath) (comp : Component) (effs : List NetEff)
    (entries entriesS : List (String × String)) :
    (retrieve_published_component backend name version env fs
        = (.ok (tarname, comp), fs1, effs) →
      fs1.readFile tarname = some (.archive entries) →
      (unpack_published_component backend name version env fs).1 = .ok comp ∧
      filesUnder (pathJoin "./INPUT" name)
          (unpack_published_component backend name version env fs).2.1
        = unpacked_view (pathJoin "./INPUT" name) entries) ∧
    (fsS.readFile (stash_tarpath backend name code) = some (.archive entriesS) →
      (unpack_stashed_component backend name code fsS).1 = .ok () ∧
      filesUnder (pathJoin "./INPUT" name)
          (unpack_stashed_component backend name code fsS).2
        = unpacked_view (pathJoin "./INPUT" name) entriesS) := by
  constructor
  · intro hr hread
    have he := extract_tarball_ok tarname name fs1 entries hread
    constructor
    · simp only [unpack_published_component, hr, he]
    · simp only [unpack_published_component, hr, he]
      exact filesUnder_extract _ _ _
  · intro hread
    have hfile : fsS.isFile (stash_tarpath backend name code) = true := by
      rw [FS.isFile_eq_readFile, hread]; rfl
    have hrs : retrieve_stashed_component backend name code fsS
        = (.ok (stash_tarpath backend name code), fsS) := by
      simp only [retrieve_stashed_component, hfile, Bool.not_true,
        Bool.false_eq_true, if_false, ite_false]
    have he := extract_tarball_ok (stash_tarpath backend name code) name fsS
      entriesS hread
    constructor
    · simp only [unpack_stashed_component, hrs, he]
    · simp only [unpack_stashed_component, hrs, he]
      exact filesUnder_extract _ _ _

theorem unpack_leaves_exact_contents_witness :
    ((unpack_published_component backendResolve "n" none none fsCachedStash).1
        = .ok { name := "n", version := 1, tarball := "u" } ∧
      filesUnder (pathJoin "./INPUT" "n")
          (unpack_published_component backendResolve "n" none none fsCachedStash).2.1
        = unpacked_view (pathJoin "./INPUT" "n") [("a", "1"), ("b", "2")]) ∧
    ((unpack_stashed_component backendResolve "n" "z" fsCachedStash).1 = .ok () ∧
      filesUnder (pathJoin "./INPUT" "n")
          (unpack_stashed_component backendResolve "n" "z" fsCachedStash).2
        = unpacked_view (pathJoin "./INPUT" "n") [("s", "3")]) :=
  ⟨(unpack_leaves_exact_contents backendResolve "n" none none "z" fsCachedStash
      fsCachedStash fsCachedStash "/c/globals/n/1/n.tar"
      { name := "n", version := 1, tarball := "u" } [] [("a", "1"), ("b", "2")]
      [("s", "3")]).1 rfl rfl,
   (unpack_leaves_exact_contents backendResolve "n" none none "z" fsCachedStash
      fsCachedStash fsCachedStash "/c/globals/n/1/n.tar"
      { name := "n", version := 1, tarball := "u" } [] [("a", "1"), ("b", "2")]
      [("s", "3")]).2 rfl⟩

/-- C7: `retrieve_stashed_component` is purely local (its very type carries
no download trace and it never touches the backend beyond the cache root):
after a successful `stash_output` for the same `(name, code)` it returns
the deterministic stash path `<root>/stash/<name>/<code>/<name>.tar.gz`,
at which a readable archive sits, with the filesystem unchanged; for an
unstashed pair it fails with `MissingStashArtifact "<name>/<code>"` and
creates no filesystem state (the filesystem is returned untouched). -/
theorem stash_retrieve_roundtrip (backend : Backend) (name code : String)
    (fs fs' fs0 : FS) :
    (stash_output backend name code fs = (.ok (), fs') →
      retrieve_stashed_component backend name code fs'
          = (.ok (stash_tarpath backend name code), fs') ∧
      (∃ es, fs'.readFile (stash_tarpath backend name code)
          = some (.archive es))) ∧
    (fs0.isFile (stash_tarpath backend name code) = false →
      retrieve_stashed_component backend name code fs0
        = (.error (.MissingStashArtifact (name ++ "/" ++ code)), fs0)) := by
  constructor
  · intro hst
    unfold stash_output output_tar at hst
    dsimp only at hst
    split at hst
    · simp at hst
    · rename_i d hread
      simp only [Prod.mk.injEq] at hst
      obtain ⟨_, hfs⟩ := hst
      have hne : stash_tarpath backend name code
          ≠ pathJoin (pathJoin (pathJoin (pathJoin backend.get_cache_dir "stash")
              name) code) "lockfile.json" := by
        intro hcontra
        exact tgz_ne_lockfile name (pathJoin_right_inj hcontra)
      have hrt : fs'.readFile (stash_tarpath backend name code)
          = some (.archive ((filesUnder "./OUTPUT"
              (fs.createDirAll (pathJoin (pathJoin (pathJoin backend.get_cache_dir
                "stash") name) code))).map
              (fun f => (String.mk (f.1.data.drop (("./OUTPUT/").data.length)),
                match f.2 with
                | FData.raw s => s
                | FData.archive _ => "")))) := by
        rw [← hfs, FS.readFile_writeFile_ne _ _ _ _ hne]
        simp only [stash_tarpath]
        exact FS.readFile_writeFile_self _ _ _
      have hreadtar : ∃ es, fs'.readFile (stash_tarpath backend name code)
          = some (.archive es) := ⟨_, hrt⟩
      have hfile : fs'.isFile (stash_tarpath backend name code) = true := by
        obtain ⟨es, hes⟩ := hreadtar
        rw [FS.isFile_eq_readFile, hes]; rfl
      refine ⟨?_, hreadtar⟩
      simp only [retrieve_stashed_component, hfile, Bool.not_true,
        Bool.false_eq_true, if_false, ite_false]
  · intro hmiss
    simp only [retrieve_stashed_component, hmiss, Bool.not_false, if_true,
      ite_true]

theorem stash_retrieve_roundtrip_witness :
    (retrieve_stashed_component backendResolve "n" "z"
        (stash_output backendResolve "n" "z" fsOutput).2
        = (.ok (stash_tarpath backendResolve "n" "z"),
           (stash_output backendResolve "n" "z" fsOutput).2) ∧
      (∃ es, ((stash_output backendResolve "n" "z" fsOutput).2).readFile
          (stash_tarpath backendResolve "n" "z") = some (.archive es))) ∧
    retrieve_stashed_component backendResolve "n" "z" fsEmpty
      = (.error (.MissingStashArtifact ("n" ++ "/" ++ "z")), fsEmpty) :=
  ⟨(stash_retrieve_roundtrip backendResolve "n" "z" fsOutput
      (stash_output backendResolve "n" "z" fsOutput).2 fsEmpty).1 rfl,
   (stash_retrieve_roundtrip backendResolve "n" "z" fsOutput
      (stash_output backendResolve "n" "z" fsOutput).2 fsEmpty).2 rfl⟩
